import Mathlib

/-!
Verification development for the ExcelProcessPython repository.

This file gives a shallow embedding, in Lean 4, of the two algorithmic
modules of the repository:

* `CPR_Invoice.py` — the fee-classification strategy: per-row identity
  guard, currency/amount coercion, bucketing into "standardFee" /
  "nonStandardFee", and the `clean_value` / `build_record` normalisation.
* `excel_processing.py` — the configurable pipeline: column validation,
  deterministic stable multi-key sort (`preprocess_data`), the two
  shift-compare adjacency formulas (`calculate_count_column`,
  `calculate_count_custom_e2`), and the `process_excel` driver.

Modelling conventions:

* A CSV/DataFrame cell from `CPR_Invoice.py` is an `Option String`
  (`none` models a pandas `NaN`/missing cell); a row is an association
  list from column name to cell.
* String munging (`str.strip`, `str.replace`) is re-implemented on
  `List Char` by structural recursion so that all definitions evaluate
  inside the kernel; the semantics follows Python's.
* Python's `int(...)` / `float(...)` / `pd.to_numeric` string parsers are
  modelled for finite decimal notation (optional sign, digits, optional
  single decimal point).  Exponent notation, `inf`/`nan` spellings,
  and underscore digit separators are not modelled; no claim in this
  development exercises them.  A parsed number is kept exactly as a
  scaled decimal `mant / 10 ^ exp` and compared by integer
  cross-multiplication, which coincides with IEEE comparison on the
  decimal literals the claims use.
* `excel_processing.py` reads every cell with `dtype=str`; a cell there
  is a `Cell` that is a string, a parsed number (after `pd.to_numeric`),
  or null.  Pandas elementwise `==` is modelled by `cellEq`, under which
  null compares unequal to everything including null.
-/

/-! ### Characters, whitespace trimming, and Python-style strip/replace -/

/-- Python `str.strip()` on a character list: drop whitespace from both ends. -/
def trimChars (l : List Char) : List Char :=
  ((l.dropWhile Char.isWhitespace).reverse.dropWhile Char.isWhitespace).reverse

/-- The composite `str(val).replace('$', '').replace(',', '').strip()` used by
`removespecialcharacters` and `clean_value` in `CPR_Invoice.py`: removing all
occurrences of the single characters `$` and `,` then stripping whitespace. -/
def stripMoney (l : List Char) : List Char :=
  trimChars (l.filter (fun c => !(c == '$' || c == ',')))

/-- Numeric value of a list of decimal digit characters, most significant first. -/
def digitsVal (l : List Char) : Nat :=
  l.foldl (fun a c => 10 * a + (c.toNat - 48)) 0

/-- Python `int(s)` on an (already stripped) string, for decimal notation:
an optional sign followed by a non-empty run of digits; anything else raises,
modelled as `none`. -/
def intParse? (l : List Char) : Option Int :=
  match l with
  | [] => none
  | '+' :: rest =>
      if !rest.isEmpty && rest.all Char.isDigit then some (digitsVal rest) else none
  | '-' :: rest =>
      if !rest.isEmpty && rest.all Char.isDigit then some (-(digitsVal rest : Int)) else none
  | _ =>
      if l.all Char.isDigit then some (digitsVal l) else none

/-! ### Exact decimals: the value domain of parsed `float`s -/

/-- An exactly represented finite decimal `m / 10 ^ e`.  This is the value a
successful Python `float(...)` / `pd.to_numeric` parse denotes. -/
structure Dec where
  m : Int
  e : Nat
deriving DecidableEq, Repr

/-- Value equality of two decimals, by integer cross-multiplication.  This is
the equality used to model `==` between parsed numbers (and the literal
`1.6`) in pandas. -/
def decEqv (a b : Dec) : Bool :=
  a.m * (10 : Int) ^ b.e == b.m * (10 : Int) ^ a.e

/-- Value order on decimals, by integer cross-multiplication. -/
def decLEv (a b : Dec) : Bool :=
  decide (a.m * (10 : Int) ^ b.e ≤ b.m * (10 : Int) ^ a.e)

/-- Python `float.is_integer()`: the decimal denotes a whole number. -/
def decIsInt (d : Dec) : Bool :=
  d.m % (10 : Int) ^ d.e == 0

/-- Python `int(num)` on a float that passed `is_integer()`. -/
def decToInt (d : Dec) : Int :=
  d.m / (10 : Int) ^ d.e

/-- Split a character list at the first `.`, keeping the tail verbatim. -/
def splitDot (l : List Char) : List Char × Option (List Char) :=
  match l with
  | [] => ([], none)
  | '.' :: rest => ([], some rest)
  | c :: rest =>
      let p := splitDot rest
      (c :: p.1, p.2)

/-- Unsigned decimal parse: `digits`, `digits.digits`, `digits.` or `.digits`,
with at least one digit overall. -/
def floatParseUnsigned (l : List Char) : Option Dec :=
  match splitDot l with
  | (ip, none) =>
      if !ip.isEmpty && ip.all Char.isDigit then some ⟨(digitsVal ip : Int), 0⟩ else none
  | (ip, some fp) =>
      if !(ip.isEmpty && fp.isEmpty) && ip.all Char.isDigit && fp.all Char.isDigit then
        some ⟨(digitsVal (ip ++ fp) : Int), fp.length⟩
      else none

/-- Python `float(s)` on an (already stripped) string, for finite decimal
notation with an optional leading sign. -/
def floatParse? (l : List Char) : Option Dec :=
  match l with
  | '+' :: rest => floatParseUnsigned rest
  | '-' :: rest => (floatParseUnsigned rest).map (fun d => ⟨-d.m, d.e⟩)
  | _ => floatParseUnsigned l

/-- Decimal digit characters of a natural number, via its `toString` form. -/
def natDigits (n : Nat) : List Char :=
  (toString n).data

/-- Left-pad with `'0'` up to length `k`. -/
def padZeros (l : List Char) (k : Nat) : List Char :=
  List.replicate (k - l.length) '0' ++ l

/-- Drop trailing `'0'` characters. -/
def stripTrailingZeros (l : List Char) : List Char :=
  (l.reverse.dropWhile (fun c => c == '0')).reverse

/-- Python `str(num)` for a non-integral finite float parsed from a decimal
literal: sign, integer part, `.`, fractional digits with trailing zeros
removed.  (Python switches to exponent notation for extreme magnitudes;
such magnitudes do not occur in this development.) -/
def renderDec (d : Dec) : String :=
  let n := d.m.natAbs
  let ip := n / 10 ^ d.e
  let fr := n % 10 ^ d.e
  let fd := stripTrailingZeros (padZeros (natDigits fr) d.e)
  let core := natDigits ip ++ ('.' :: fd)
  String.mk (if d.m < 0 then '-' :: core else core)

/-! ### `CPR_Invoice.py`: rows, cleaning, records, and the fee classification -/

/-- A row of the invoice sheet: association list from column name to cell,
where a cell is `none` exactly when pandas holds `NaN` there. -/
abbrev Row := List (String × Option String)

/-- Python `row.get(k)` (default `None`): `none` when the column is absent or
the cell is `NaN`. -/
def rowGetN (r : Row) (k : String) : Option String :=
  (r.find? (fun p => p.1 == k)).bind (fun p => p.2)

/-- Python `row.get(k, "Null")`: the cell when the column exists, the string
`"Null"` when it is absent. -/
def rowGetS (r : Row) (k : String) : Option String :=
  match r.find? (fun p => p.1 == k) with
  | some p => p.2
  | none => some "Null"

/-- `df.fillna("Null")` restricted to one row: every `NaN` cell becomes the
string `"Null"`. -/
def fillnaRow (r : Row) : Row :=
  r.map (fun p => (p.1, some (p.2.getD "Null")))

/-- `removespecialcharacters` (`CPR_Invoice.py` lines 53-54):
`int(str(val).replace('$', '').replace(',', '').strip())`; a failed `int`
parse raises, modelled as `none`.  `str` of a missing value (`nan`) never
parses as an integer. -/
def removespecialcharacters (v : Option String) : Option Int :=
  match v with
  | none => none
  | some s => intParse? (stripMoney s.data)

/-- `clean_value` (`CPR_Invoice.py` lines 56-63): `NaN`/`None` becomes
`"Null"`; otherwise strip currency/thousands characters and whitespace and
attempt a float parse — whole numbers render as the integer's string form,
other numbers as their decimal string form, and parse failures fall back to
the trimmed original string. -/
def clean_value (v : Option String) : String :=
  match v with
  | none => "Null"
  | some s =>
      match floatParse? (stripMoney s.data) with
      | some d => if decIsInt d then toString (decToInt d) else renderDec d
      | none => String.mk (trimChars s.data)

/-- The nested `recJson` object built by `build_record`.  The Python keys
`"0-30 days"` … `"91+ days"` map to the `f…Days` fields. -/
structure RecJson where
  fileName : String
  claimNumber : String
  contractNumber : String
  insured : String
  stateOfLoss : String
  businessType : String
  txn : String
  type : String
  date : String
  amount : String
  f0to30Days : String
  f31to60Days : String
  f61to90Days : String
  f91Days : String
  netBalance : String
  mileage : String
deriving DecidableEq, Repr

/-- The output record shape `{claimNumber, amount, recJson}`. -/
structure InvoiceRecord where
  claimNumber : String
  amount : String
  recJson : RecJson
deriving DecidableEq, Repr

/-- `build_record` (`CPR_Invoice.py` lines 65-91). -/
def build_record (r : Row) : InvoiceRecord :=
  { claimNumber := clean_value (rowGetN r "Claim #")
    amount := clean_value (rowGetN r "Amount")
    recJson :=
      { fileName := clean_value (rowGetN r "File #")
        claimNumber := clean_value (rowGetN r "Claim #")
        contractNumber := clean_value (rowGetN r "Contact")
        insured := clean_value (rowGetN r "Insured")
        stateOfLoss := clean_value (rowGetN r "State of Loss")
        businessType := clean_value (rowGetN r "Business Type")
        txn := clean_value (rowGetN r "Txn #")
        type := clean_value (rowGetN r "Type")
        date := clean_value (rowGetN r "Date")
        amount := clean_value (rowGetN r "Amount")
        f0to30Days := clean_value (rowGetN r "0-30 days")
        f31to60Days := clean_value (rowGetN r "31-60 days")
        f61to90Days := clean_value (rowGetN r "61-90 days")
        f91Days := clean_value (rowGetN r "91+ days")
        netBalance := clean_value (rowGetN r "Net Balance")
        mileage := clean_value (rowGetN r "Mileage") } }

/-- The blank/sentinel test used by the identity guard on one field value
(`CPR_Invoice.py` lines 110-112): `pd.isna(v) or str(v).strip() == "Null"`. -/
def isBlank (v : Option String) : Bool :=
  match v with
  | none => true
  | some s => String.mk (trimChars s.data) == "Null"

/-- Outcome of processing one row inside the `process_file` loop
(`CPR_Invoice.py` lines 103-125). -/
inductive RowOutcome where
  | identityError : RowOutcome
  | coercionError : RowOutcome
  | standard : InvoiceRecord → RowOutcome
  | nonStandard : InvoiceRecord → RowOutcome
deriving DecidableEq, Repr

/-- One iteration of the `process_file` loop: the identity guard fires first
(raising before any bucketing); then the amount is integer-coerced (a
failure raises and the row is skipped); surviving rows are bucketed by
membership of the coerced amount in `[85, 140]`. -/
def process_row (r : Row) : RowOutcome :=
  if isBlank (rowGetS r "Claim #") && isBlank (rowGetS r "Contact")
      && isBlank (rowGetS r "Insured") then
    .identityError
  else
    match removespecialcharacters (rowGetS r "Amount") with
    | none => .coercionError
    | some n =>
        if n == 85 || n == 140 then .standard (build_record r)
        else .nonStandard (build_record r)

/-- Result of `process_file`: the two returned buckets plus the rows skipped
by the per-row exception handler (logged at line 124 and excluded from both
buckets). -/
structure FileResult where
  standardFee : List InvoiceRecord
  nonStandardFee : List InvoiceRecord
  errors : List Row
deriving DecidableEq, Repr

/-- `process_file` (`CPR_Invoice.py` lines 93-131) after the file has been
read: `fillna("Null")`, then the per-row loop. -/
def process_file (rows : List Row) : FileResult :=
  match rows with
  | [] => ⟨[], [], []⟩
  | r :: rest =>
      let res := process_file rest
      match process_row (fillnaRow r) with
      | .identityError => { res with errors := r :: res.errors }
      | .coercionError => { res with errors := r :: res.errors }
      | .standard rec => { res with standardFee := rec :: res.standardFee }
      | .nonStandard rec => { res with nonStandardFee := rec :: res.nonStandardFee }

/-! ### Theorems about the fee-classification strategy -/

/-- Helper: the three-way identity guard as a propositional conjunction. -/
theorem guard_eq_true_iff (r : Row) :
    (isBlank (rowGetS r "Claim #") && isBlank (rowGetS r "Contact")
      && isBlank (rowGetS r "Insured")) = true ↔
    (isBlank (rowGetS r "Claim #") = true ∧ isBlank (rowGetS r "Contact") = true
      ∧ isBlank (rowGetS r "Insured") = true) := by
  simp [Bool.and_eq_true, and_assoc]

/-- C3: inside `process_file`'s loop a row is rejected by the required-identity
guard — recorded among the errored rows, not bucketed — if and only if its
`Claim #`, `Contact`, and `Insured` cells are all simultaneously
blank/sentinel (missing, or trimming to the `"Null"` sentinel) in the sense
of the guard at lines 110-112; the guard depends on no other field, and a
guard rejection prepends the row to the error collection of the file result
while leaving both buckets unchanged. -/
theorem identity_guard_iff :
    (∀ r : Row, process_row r = .identityError ↔
      (isBlank (rowGetS r "Claim #") = true ∧ isBlank (rowGetS r "Contact") = true
        ∧ isBlank (rowGetS r "Insured") = true)) ∧
    (∀ (r : Row) (rows : List Row), process_row (fillnaRow r) = .identityError →
      (process_file (r :: rows)).standardFee = (process_file rows).standardFee ∧
      (process_file (r :: rows)).nonStandardFee = (process_file rows).nonStandardFee ∧
      (process_file (r :: rows)).errors = r :: (process_file rows).errors) := by
  constructor
  · intro r
    rw [← guard_eq_true_iff]
    unfold process_row
    cases hb : (isBlank (rowGetS r "Claim #") && isBlank (rowGetS r "Contact")
      && isBlank (rowGetS r "Insured")) with
    | false =>
        simp only [Bool.false_eq_true, if_false, iff_false]
        intro hcontra
        split at hcontra
        · exact RowOutcome.noConfusion hcontra
        · split at hcontra <;> exact RowOutcome.noConfusion hcontra
    | true => simp
  · intro r rows h
    simp [process_file, h]

/-- Witness for C3 at a concrete all-blank row. -/
theorem identity_guard_iff_witness :
    process_row (fillnaRow [("Claim #", none), ("Contact", some " Null "),
        ("Insured", some "Null"), ("Amount", some "85")]) = .identityError ∧
    (process_file [[("Claim #", none), ("Contact", some " Null "),
        ("Insured", some "Null"), ("Amount", some "85")]]).errors
      = [[("Claim #", none), ("Contact", some " Null "),
          ("Insured", some "Null"), ("Amount", some "85")]] := by
  refine ⟨by decide, ?_⟩
  have h := identity_guard_iff.2
    [("Claim #", none), ("Contact", some " Null "), ("Insured", some "Null"),
      ("Amount", some "85")] [] (by decide)
  simpa using h.2.2

/-- C2: the sizes of the two buckets plus the number of errored (skipped)
rows partition the input row count exactly: no row of `process_file` is
dropped without trace and none is counted twice. -/
theorem fee_partition_sizes (rows : List Row) :
    (process_file rows).standardFee.length + (process_file rows).nonStandardFee.length
      + (process_file rows).errors.length = rows.length := by
  induction rows with
  | nil => simp [process_file]
  | cons r rest ih =>
      unfold process_file
      cases h : process_row (fillnaRow r) <;> simp [h] <;> omega

/-- C1 counterexample: a row whose `Amount` is `"$85.00"` is not placed in
the `standardFee` bucket (nor anywhere else), and a row whose `Amount` is
`"abc"` is not placed in `nonStandardFee`: Python's `int("85.00")` and
`int("abc")` both raise, so the per-row exception handler skips both rows
entirely — a coercion failure rejects the row instead of changing its
bucket. -/
theorem dollar_850_0_and_abc_rows_are_skipped :
    process_file
      [[("Claim #", some "C77"), ("Amount", some "$85.00")],
       [("Claim #", some "C78"), ("Amount", some "abc")]]
    = ⟨[], [],
       [[("Claim #", some "C77"), ("Amount", some "$85.00")],
        [("Claim #", some "C78"), ("Amount", some "abc")]]⟩ := by decide

/-- C1 (amended): for a row that passes the identity guard, if the `Amount`
cell integer-coerces (after stripping `$` and `,` and whitespace) to `n`,
the row is bucketed to `standardFee` when `n` is 85 or 140 and to
`nonStandardFee` otherwise; if the coercion fails (as for `"$85.00"` or
`"abc"`), the row is skipped as an error and lands in no bucket. -/
theorem fee_bucketing_amended (r : Row)
    (hguard : ¬(isBlank (rowGetS r "Claim #") = true
      ∧ isBlank (rowGetS r "Contact") = true
      ∧ isBlank (rowGetS r "Insured") = true)) :
    (∀ n : Int, removespecialcharacters (rowGetS r "Amount") = some n →
      process_row r =
        (if n = 85 ∨ n = 140 then .standard (build_record r)
         else .nonStandard (build_record r)))
    ∧ (removespecialcharacters (rowGetS r "Amount") = none →
        process_row r = .coercionError) := by
  rw [← guard_eq_true_iff, Bool.not_eq_true] at hguard
  constructor
  · intro n hn
    unfold process_row
    rw [hguard, hn]
    simp only [Bool.false_eq_true, if_false]
    by_cases h85 : n = 85 ∨ n = 140
    · have : (n == 85 || n == 140) = true := by
        rcases h85 with h | h <;> simp [h]
      simp [this, h85]
    · have : (n == 85 || n == 140) = false := by
        push_neg at h85
        simp [h85.1, h85.2]
      simp [this, h85]
  · intro hn
    unfold process_row
    rw [hguard, hn]
    simp

/-- Witness for C1's amended theorem at concrete rows with amounts
`"$86"` (non-standard) and `"$85.00"` (skipped). -/
theorem fee_bucketing_amended_witness :
    (¬(isBlank (rowGetS [("Claim #", some "C1"), ("Amount", some "$86")] "Claim #") = true
      ∧ isBlank (rowGetS [("Claim #", some "C1"), ("Amount", some "$86")] "Contact") = true
      ∧ isBlank (rowGetS [("Claim #", some "C1"), ("Amount", some "$86")] "Insured") = true))
    ∧ process_row [("Claim #", some "C1"), ("Amount", some "$86")]
        = .nonStandard (build_record [("Claim #", some "C1"), ("Amount", some "$86")])
    ∧ process_row [("Claim #", some "C1"), ("Amount", some "$85.00")] = .coercionError := by
  refine ⟨by decide, ?_, ?_⟩
  · have h := (fee_bucketing_amended [("Claim #", some "C1"), ("Amount", some "$86")]
      (by decide)).1 86 (by decide)
    simpa using h
  · exact (fee_bucketing_amended [("Claim #", some "C1"), ("Amount", some "$85.00")]
      (by decide)).2 (by decide)

/-- C9: `clean_value` maps a missing cell to the sentinel string `"Null"`;
otherwise it strips the currency symbol, thousands separators, and
surrounding whitespace and attempts a numeric parse — a whole-number parse
(one whose mantissa is an exact integer multiple of its power-of-ten scale)
renders as that integer's string form, a non-integral parse renders as its
decimal string form, and a failed parse yields the trimmed original string.
Two concrete instances: `"$1,234.50"` cleans to `"1234.5"` and `"85.00"`
cleans to `"85"`. -/
theorem clean_value_spec :
    clean_value none = "Null"
    ∧ (∀ (s : String) (d : Dec), floatParse? (stripMoney s.data) = some d →
        decIsInt d = true →
        ∃ k : Int, d.m = k * (10 : Int) ^ d.e ∧ clean_value (some s) = toString k)
    ∧ (∀ (s : String) (d : Dec), floatParse? (stripMoney s.data) = some d →
        decIsInt d = false → clean_value (some s) = renderDec d)
    ∧ (∀ s : String, floatParse? (stripMoney s.data) = none →
        clean_value (some s) = String.mk (trimChars s.data))
    ∧ clean_value (some "$1,234.50") = "1234.5"
    ∧ clean_value (some "85.00") = "85" := by
  refine ⟨rfl, ?_, ?_, ?_, by decide, by decide⟩
  · intro s d hp hi
    refine ⟨decToInt d, ?_, ?_⟩
    · have hdvd : (10 : Int) ^ d.e ∣ d.m := by
        have : d.m % (10 : Int) ^ d.e = 0 := by simpa [decIsInt] using hi
        exact Int.dvd_of_emod_eq_zero this
      have := Int.ediv_mul_cancel hdvd
      simpa [decToInt, Int.mul_comm] using this.symm
    · simp [clean_value, hp, hi]
  · intro s d hp hi
    simp [clean_value, hp, hi]
  · intro s hp
    simp [clean_value, hp]

/-- Witness for C9 at the concrete inputs `"85.00"` (whole number) and
`"$1,234.50"` (non-integral). -/
theorem clean_value_spec_witness :
    (floatParse? (stripMoney ("85.00" : String).data) = some ⟨8500, 2⟩
      ∧ decIsInt ⟨8500, 2⟩ = true
      ∧ ∃ k : Int, (8500 : Int) = k * (10 : Int) ^ 2
          ∧ clean_value (some "85.00") = toString k)
    ∧ (floatParse? (stripMoney ("$1,234.50" : String).data) = some ⟨123450, 2⟩
      ∧ decIsInt ⟨123450, 2⟩ = false
      ∧ clean_value (some "$1,234.50") = renderDec ⟨123450, 2⟩) := by
  refine ⟨⟨by decide, by decide, ?_⟩, ⟨by decide, by decide, ?_⟩⟩
  · exact clean_value_spec.2.1 "85.00" ⟨8500, 2⟩ (by decide) (by decide)
  · exact clean_value_spec.2.2.1 "$1,234.50" ⟨123450, 2⟩ (by decide) (by decide)

/-- C10: every record accepted by the row loop (bucketed to either fee
bucket) is internally consistent: the top-level `claimNumber` equals the
nested `recJson.claimNumber` and the top-level `amount` equals the nested
`recJson.amount`, both being `clean_value` of the same source cells. -/
theorem record_consistency (r : Row) (rec : InvoiceRecord)
    (h : process_row r = .standard rec ∨ process_row r = .nonStandard rec) :
    rec.claimNumber = rec.recJson.claimNumber ∧ rec.amount = rec.recJson.amount := by
  have hrec : rec = build_record r := by
    rcases h with h | h <;>
    · unfold process_row at h
      split at h
      · exact RowOutcome.noConfusion h
      · split at h
        · exact RowOutcome.noConfusion h
        · split at h <;> first
            | (injection h with h'; exact h'.symm)
            | exact RowOutcome.noConfusion h
  subst hrec
  exact ⟨rfl, rfl⟩

/-- Witness for C10 at a concrete accepted row. -/
theorem record_consistency_witness :
    (process_row [("Claim #", some "C9"), ("Amount", some "$140")]
        = .standard (build_record [("Claim #", some "C9"), ("Amount", some "$140")]))
    ∧ (build_record [("Claim #", some "C9"), ("Amount", some "$140")]).claimNumber
        = (build_record [("Claim #", some "C9"), ("Amount", some "$140")]).recJson.claimNumber
    ∧ (build_record [("Claim #", some "C9"), ("Amount", some "$140")]).amount
        = (build_record [("Claim #", some "C9"), ("Amount", some "$140")]).recJson.amount := by
  refine ⟨by decide, ?_⟩
  exact record_consistency [("Claim #", some "C9"), ("Amount", some "$140")]
    (build_record [("Claim #", some "C9"), ("Amount", some "$140")]) (Or.inl (by decide))

/-! ### `excel_processing.py`: cells, frames, configuration -/

/-- A cell of the excel pipeline: the file is read with `dtype=str`, so a
cell is a string, a parsed number (only after `pd.to_numeric` ran on the
`PRICE` column), or null (`NaN`). -/
inductive Cell where
  | s : String → Cell
  | n : Dec → Cell
  | null : Cell
deriving DecidableEq, Repr

/-- A row of the excel pipeline: association list from (normalized) column
name to cell. -/
abbrev XRow := List (String × Cell)

/-- Column lookup on a row; a missing column reads as null. -/
def getCell (r : XRow) (k : String) : Cell :=
  match r.find? (fun p => p.1 == k) with
  | some p => p.2
  | none => .null

/-- Pandas column assignment `df[k] = c` restricted to one row: overwrite
the existing column, or append a new one at the end. -/
def setCell (r : XRow) (k : String) (c : Cell) : XRow :=
  if r.any (fun p => p.1 == k) then
    r.map (fun p => if p.1 == k then (p.1, c) else p)
  else r ++ [(k, c)]

/-- Pandas elementwise `==`: equal strings match, numbers match by value,
everything involving `NaN` (including `NaN == NaN`) is `False`, and a
string never equals a number. -/
def cellEq : Cell → Cell → Bool
  | .s a, .s b => a == b
  | .n a, .n b => decEqv a b
  | _, _ => false

/-- Pandas `.str.upper()` on one cell: upper-case a string, `NaN` otherwise. -/
def cellUpper : Cell → Cell
  | .s a => .s (String.mk (a.data.map Char.toUpper))
  | _ => .null

/-- `pd.to_numeric(…, errors='coerce')` on one cell: parse strings as
numbers, keep numbers, and coerce failures (and `NaN`) to null. -/
def toNumericCell : Cell → Cell
  | .s v =>
      match floatParse? (trimChars v.data) with
      | some d => .n d
      | none => .null
  | .n d => .n d
  | .null => .null

/-- The `PRICE` conversion of `preprocess_data` (line 73-74) on one row. -/
def priceNumRow (r : XRow) : XRow :=
  r.map (fun p => if p.1 == "PRICE" then (p.1, toNumericCell p.2) else p)

/-- A tabular dataset: the column list (kept even when there are no rows)
plus the rows. -/
structure DFrame where
  cols : List String
  rows : List XRow
deriving DecidableEq, Repr

/-- One entry of `PROCESSING_CONFIGS`. -/
structure Config where
  required_columns : List String
  sort_by : List (String × Bool)
  count_formula : String
  export_columns : String
deriving DecidableEq, Repr

/-- The closed configuration registry `PROCESSING_CONFIGS`
(`excel_processing.py` lines 20-33). -/
def PROCESSING_CONFIGS (key : String) : Option Config :=
  if key == "default" then
    some ⟨["VIN", "TERM", "START DATE", "PRICE"],
      [("VIN", true), ("PRICE", false)], "filtration_for_file_1", "ALL"⟩
  else if key == "custom_file_2" then
    some ⟨["FORM", "VIN", "PURE RISK TYPE"],
      [("FORM", true), ("VIN", true), ("PURE RISK TYPE", true)],
      "filtration_for_file_2", "ALL"⟩
  else none

/-! ### The deterministic sorter -/

/-- Code-point lexicographic comparison of character lists (non-strict). -/
def strLE : List Char → List Char → Bool
  | [], _ => true
  | _ :: _, [] => false
  | x :: xs, y :: ys =>
      if x.toNat < y.toNat then true
      else if y.toNat < x.toNat then false
      else strLE xs ys

/-- Per-key cell order used by `sort_values`: values compare by string or
numeric order in the declared direction, while null is placed last in
either direction (pandas `na_position='last'`); across the (never mixed in
practice) string/number kinds, strings sort first. -/
def cellLE (asc : Bool) : Cell → Cell → Bool
  | _, .null => true
  | .null, _ => false
  | .s a, .s b => if asc then strLE a.data b.data else strLE b.data a.data
  | .n a, .n b => if asc then decLEv a b else decLEv b a
  | .s _, .n _ => true
  | .n _, .s _ => false

/-- Lexicographic multi-key row comparison in the declared key order and
directions, as used by `sort_values(by=…, ascending=…)`. -/
def rowLE (sortBy : List (String × Bool)) (a b : XRow) : Bool :=
  match sortBy with
  | [] => true
  | (k, asc) :: rest =>
      if cellLE asc (getCell a k) (getCell b k) then
        (if cellLE asc (getCell b k) (getCell a k) then rowLE rest a b else true)
      else false

/-- `preprocess_data` (`excel_processing.py` lines 71-82): numeric-coerce the
`PRICE` column when present, then stable multi-key mergesort
(`kind='mergesort'`) by the configured keys. -/
def preprocess_data (sortBy : List (String × Bool)) (df : DFrame) : DFrame :=
  ⟨df.cols, List.mergeSort (df.rows.map priceNumRow) (rowLE sortBy)⟩

/-! ### The adjacency formulas -/

/-- The boolean combination computed by `calculate_count_column` for one row
given its predecessor (the `shift(1)` row); the first row has no
predecessor and every comparison against the shifted `NaN` is `False`. -/
def count1Flag (prev : Option XRow) (cur : XRow) : Bool :=
  match prev with
  | none => false
  | some p =>
      cellEq (getCell cur "VIN") (getCell p "VIN") &&
      cellEq (getCell cur "TERM") (getCell p "TERM") &&
      cellEq (getCell cur "START DATE") (getCell p "START DATE") &&
      cellEq (getCell cur "PRICE") (.n ⟨16, 1⟩)

/-- The boolean combination computed by `calculate_count_custom_e2` for one
row given its predecessor: identifier fields match and the upper-cased
`PURE RISK TYPE` transitions from `"KEY"` to `"ROADSIDE"`. -/
def countE2Flag (prev : Option XRow) (cur : XRow) : Bool :=
  match prev with
  | none => false
  | some p =>
      cellEq (getCell cur "FORM") (getCell p "FORM") &&
      cellEq (getCell cur "VIN") (getCell p "VIN") &&
      cellEq (cellUpper (getCell p "PURE RISK TYPE")) (.s "KEY") &&
      cellEq (cellUpper (getCell cur "PURE RISK TYPE")) (.s "ROADSIDE")

/-- `.astype(int)` of the boolean column. -/
def countCell (b : Bool) : Cell :=
  .n ⟨if b then 1 else 0, 0⟩

/-- Apply a predecessor-aware row transformation down a dataset, pairing each
row with its `shift(1)` predecessor. -/
def withPrevMap (f : Option XRow → XRow → XRow) (rows : List XRow) : List XRow :=
  List.zipWith f (none :: rows.map some) rows

/-- The row part of `calculate_count_column`. -/
def countRows1 (rows : List XRow) : List XRow :=
  withPrevMap (fun p c => setCell c "COUNT" (countCell (count1Flag p c))) rows

/-- The row part of `calculate_count_custom_e2`. -/
def countRowsE2 (rows : List XRow) : List XRow :=
  withPrevMap (fun p c => setCell c "COUNT" (countCell (countE2Flag p c))) rows

/-- Append a column name if absent (pandas column assignment on the header). -/
def addColumn (cols : List String) (k : String) : List String :=
  if cols.contains k then cols else cols ++ [k]

/-- `calculate_count_column` (`excel_processing.py` lines 84-95): derive the
`COUNT` column; accessing a missing source column raises a `KeyError`
(caught and re-raised by the enclosing handler), modelled as an error. -/
def calculate_count_column (df : DFrame) : Except String DFrame :=
  if ["VIN", "TERM", "START DATE", "PRICE"].all (fun c => df.cols.contains c) then
    .ok ⟨addColumn df.cols "COUNT", countRows1 df.rows⟩
  else .error "KeyError"

/-- `calculate_count_custom_e2` (`excel_processing.py` lines 97-111), with
its explicit required-column guard. -/
def calculate_count_custom_e2 (df : DFrame) : Except String DFrame :=
  if ["FORM", "VIN", "PURE RISK TYPE"].all (fun c => df.cols.contains c) then
    .ok ⟨addColumn df.cols "COUNT", countRowsE2 df.rows⟩
  else .error "One or more required columns are missing for custom E2 formula."

/-- `apply_count_formula` (`excel_processing.py` lines 113-119). -/
def apply_count_formula (df : DFrame) (key : String) : Except String DFrame :=
  if key == "filtration_for_file_1" then calculate_count_column df
  else if key == "filtration_for_file_2" then calculate_count_custom_e2 df
  else .error "Unknown formula"

/-! ### Validation, filtering, and the pipeline driver -/

/-- `validate_columns` (`excel_processing.py` lines 66-69): collect every
required column absent from the dataset and fail with the full list when
non-empty. -/
def validate_columns (df : DFrame) (required : List String) : Except (List String) Unit :=
  let missing := required.filter (fun c => !df.cols.contains c)
  if missing.isEmpty then .ok () else .error missing

/-- `filter_vins_with_count_one` (`excel_processing.py` lines 121-145):
keep the rows whose `COUNT` equals 1. -/
def filter_vins_with_count_one (df : DFrame) : Except String (List XRow) :=
  if df.cols.contains "COUNT" then
    .ok (df.rows.filter (fun r => cellEq (getCell r "COUNT") (.n ⟨1, 0⟩)))
  else .error "COUNT column not found."

/-- The abort conditions surfaced by `process_excel`. -/
inductive PipelineError where
  | unknownConfig : PipelineError
  | missingColumns : List String → PipelineError
  | formulaError : String → PipelineError
deriving DecidableEq, Repr

/-- `process_excel` (`excel_processing.py` lines 164-193) after the file
has been read and normalized: config lookup, column validation, sorting,
classification, and the `COUNT == 1` filtering that feeds the export. -/
def process_excel (df : DFrame) (key : String) : Except PipelineError (List XRow) :=
  match PROCESSING_CONFIGS key with
  | none => .error .unknownConfig
  | some cfg =>
      match validate_columns df cfg.required_columns with
      | .error missing => .error (.missingColumns missing)
      | .ok _ =>
          let sorted := preprocess_data cfg.sort_by df
          match apply_count_formula sorted cfg.count_formula with
          | .error e => .error (.formulaError e)
          | .ok classified =>
              match filter_vins_with_count_one classified with
              | .error e => .error (.formulaError e)
              | .ok kept => .ok kept

/-! ### Theorems about validation and the pipeline abort -/

/-- Bridge between boolean `contains` and membership for column lists. -/
theorem contains_true_iff (cols : List String) (c : String) :
    cols.contains c = true ↔ c ∈ cols := by
  simp [List.contains, List.elem_iff]

/-- C8: `validate_columns` succeeds exactly when every required column is
present; on failure the error lists precisely the absent required columns
(all of them, in declaration order); and inside `process_excel` a
validation failure aborts the run with `missingColumns` before the sort,
classification, or filter/export steps produce anything. -/
theorem validate_columns_spec :
    (∀ (df : DFrame) (required : List String),
      validate_columns df required = .ok () ↔ ∀ c ∈ required, c ∈ df.cols)
    ∧ (∀ (df : DFrame) (required m : List String),
        validate_columns df required = .error m →
          m = required.filter (fun c => !df.cols.contains c) ∧ m ≠ []
          ∧ (∀ c, c ∈ m ↔ (c ∈ required ∧ c ∉ df.cols)))
    ∧ (∀ (df : DFrame) (key : String) (cfg : Config) (m : List String),
        PROCESSING_CONFIGS key = some cfg →
        validate_columns df cfg.required_columns = .error m →
        process_excel df key = .error (.missingColumns m)) := by
  refine ⟨?_, ?_, ?_⟩
  · intro df required
    constructor
    · intro h c hc
      simp only [validate_columns] at h
      split at h
      · next hemp =>
          rw [List.isEmpty_iff, List.filter_eq_nil_iff] at hemp
          have := hemp c hc
          exact (contains_true_iff _ _).mp (by simpa using this)
      · exact Except.noConfusion h
    · intro hall
      have hnil : (required.filter (fun c => !df.cols.contains c)) = [] := by
        rw [List.filter_eq_nil_iff]
        intro c hc
        simp [contains_true_iff, hall c hc]
      simp only [validate_columns, hnil, List.isEmpty_nil, if_true]
  · intro df required m h
    simp only [validate_columns] at h
    split at h
    · exact Except.noConfusion h
    · next hemp =>
        injection h with h
        refine ⟨h.symm, ?_, ?_⟩
        · rw [← h]
          simpa [List.isEmpty_iff] using hemp
        · intro c
          rw [← h, List.mem_filter]
          simp [contains_true_iff]
  · intro df key cfg m hcfg hval
    simp [process_excel, hcfg, hval]

/-- Witness for C8: config `"default"` on a frame lacking `START DATE` and
`PRICE` aborts with exactly those columns listed. -/
theorem validate_columns_spec_witness :
    PROCESSING_CONFIGS "default"
      = some ⟨["VIN", "TERM", "START DATE", "PRICE"],
          [("VIN", true), ("PRICE", false)], "filtration_for_file_1", "ALL"⟩
    ∧ validate_columns ⟨["VIN", "TERM"], []⟩
        ["VIN", "TERM", "START DATE", "PRICE"] = .error ["START DATE", "PRICE"]
    ∧ process_excel ⟨["VIN", "TERM"], []⟩ "default"
        = .error (.missingColumns ["START DATE", "PRICE"]) := by
  refine ⟨rfl, rfl, ?_⟩
  exact validate_columns_spec.2.2 ⟨["VIN", "TERM"], []⟩ "default"
    ⟨["VIN", "TERM", "START DATE", "PRICE"],
      [("VIN", true), ("PRICE", false)], "filtration_for_file_1", "ALL"⟩
    ["START DATE", "PRICE"] rfl rfl

/-! ### The sorter's comparison is a total preorder -/

theorem strLE_total : ∀ a b : List Char, strLE a b = true ∨ strLE b a = true := by
  intro a
  induction a with
  | nil => intro b; left; rfl
  | cons x xs ih =>
      intro b
      cases b with
      | nil => right; rfl
      | cons y ys =>
          simp only [strLE]
          rcases Nat.lt_trichotomy x.toNat y.toNat with h | h | h
          · left; simp [h]
          · have h1 : ¬ x.toNat < y.toNat := by omega
            have h2 : ¬ y.toNat < x.toNat := by omega
            rcases ih ys with hr | hr
            · left; simp [h1, h2, hr]
            · right; simp [h1, h2, hr]
          · right; simp [h]

theorem strLE_trans :
    ∀ a b c : List Char, strLE a b = true → strLE b c = true → strLE a c = true := by
  intro a
  induction a with
  | nil => intro b c _ _; rfl
  | cons x xs ih =>
      intro b c hab hbc
      cases b with
      | nil => exact absurd hab (by simp [strLE])
      | cons y ys =>
          cases c with
          | nil => exact absurd hbc (by simp [strLE])
          | cons z zs =>
              simp only [strLE] at hab hbc ⊢
              by_cases hzy : z.toNat < y.toNat
              · have hyz : ¬ y.toNat < z.toNat := by omega
                rw [if_neg hyz, if_pos hzy] at hbc
                exact absurd hbc (by simp)
              by_cases hyx : y.toNat < x.toNat
              · have hxy : ¬ x.toNat < y.toNat := by omega
                rw [if_neg hxy, if_pos hyx] at hab
                exact absurd hab (by simp)
              -- now x ≤ y and y ≤ z in code-point order
              by_cases hxz : x.toNat < z.toNat
              · rw [if_pos hxz]
              · have hzx : ¬ z.toNat < x.toNat := by omega
                rw [if_neg hxz, if_neg hzx]
                -- all three heads equal
                have hxy : ¬ x.toNat < y.toNat := by omega
                have hyz : ¬ y.toNat < z.toNat := by omega
                rw [if_neg hxy, if_neg hyx] at hab
                rw [if_neg hyz, if_neg hzy] at hbc
                exact ih ys zs hab hbc

theorem decLEv_total : ∀ a b : Dec, decLEv a b = true ∨ decLEv b a = true := by
  intro a b
  simp only [decLEv, decide_eq_true_eq]
  exact Int.le_total _ _

theorem decLEv_trans :
    ∀ a b c : Dec, decLEv a b = true → decLEv b c = true → decLEv a c = true := by
  intro a b c h1 h2
  simp only [decLEv, decide_eq_true_eq] at h1 h2 ⊢
  have pb : (0 : Int) < 10 ^ b.e := by positivity
  have pc : (0 : Int) ≤ 10 ^ c.e := by positivity
  have pa : (0 : Int) ≤ 10 ^ a.e := by positivity
  have h1' := mul_le_mul_of_nonneg_right h1 pc
  have h2' := mul_le_mul_of_nonneg_right h2 pa
  have key : a.m * 10 ^ c.e * 10 ^ b.e ≤ c.m * 10 ^ a.e * 10 ^ b.e := by nlinarith
  exact le_of_mul_le_mul_right key pb

theorem cellLE_total (asc : Bool) (x y : Cell) :
    cellLE asc x y = true ∨ cellLE asc y x = true := by
  cases x with
  | null =>
      cases y with
      | null => left; rfl
      | s b => right; rfl
      | n b => right; rfl
  | s a =>
      cases y with
      | null => left; rfl
      | n b => left; rfl
      | s b =>
          cases asc with
          | true => exact strLE_total a.data b.data
          | false => exact strLE_total b.data a.data
  | n a =>
      cases y with
      | null => left; rfl
      | s b => right; rfl
      | n b =>
          cases asc with
          | true => exact decLEv_total a b
          | false => exact decLEv_total b a

theorem cellLE_trans (asc : Bool) :
    ∀ x y z : Cell, cellLE asc x y = true → cellLE asc y z = true →
      cellLE asc x z = true := by
  intro x y z hxy hyz
  cases z with
  | null => cases x <;> rfl
  | s c =>
      cases y with
      | null => exact Bool.noConfusion hyz
      | n b => exact Bool.noConfusion hyz
      | s b =>
          cases x with
          | null => exact Bool.noConfusion hxy
          | n a => exact Bool.noConfusion hxy
          | s a =>
              cases asc with
              | true => exact strLE_trans a.data b.data c.data hxy hyz
              | false => exact strLE_trans c.data b.data a.data hyz hxy
  | n c =>
      cases y with
      | null => exact Bool.noConfusion hyz
      | s b =>
          cases x with
          | null => exact Bool.noConfusion hxy
          | s a => rfl
          | n a => exact Bool.noConfusion hxy
      | n b =>
          cases x with
          | null => exact Bool.noConfusion hxy
          | s a => rfl
          | n a =>
              cases asc with
              | true => exact decLEv_trans a b c hxy hyz
              | false => exact decLEv_trans c b a hyz hxy

theorem rowLE_total (sortBy : List (String × Bool)) :
    ∀ a b : XRow, rowLE sortBy a b = true ∨ rowLE sortBy b a = true := by
  induction sortBy with
  | nil => intro a b; left; rfl
  | cons p rest ih =>
      intro a b
      obtain ⟨k, asc⟩ := p
      simp only [rowLE]
      cases h1 : cellLE asc (getCell a k) (getCell b k) with
      | false =>
          cases h2 : cellLE asc (getCell b k) (getCell a k) with
          | false =>
              rcases cellLE_total asc (getCell a k) (getCell b k) with h | h
              · exact absurd h (by simp [h1])
              · exact absurd h (by simp [h2])
          | true => right; simp [h1, h2]
      | true =>
          cases h2 : cellLE asc (getCell b k) (getCell a k) with
          | false => left; simp [h1, h2]
          | true =>
              rcases ih a b with h | h
              · left; simp [h1, h2, h]
              · right; simp [h1, h2, h]

theorem rowLE_trans (sortBy : List (String × Bool)) :
    ∀ a b c : XRow, rowLE sortBy a b = true → rowLE sortBy b c = true →
      rowLE sortBy a c = true := by
  induction sortBy with
  | nil => intro a b c _ _; rfl
  | cons p rest ih =>
      intro a b c hab hbc
      obtain ⟨k, asc⟩ := p
      simp only [rowLE] at hab hbc ⊢
      cases h1 : cellLE asc (getCell a k) (getCell b k) with
      | false => rw [h1] at hab; exact absurd hab (by simp)
      | true =>
      rw [h1] at hab
      cases h3 : cellLE asc (getCell b k) (getCell c k) with
      | false => rw [h3] at hbc; exact absurd hbc (by simp)
      | true =>
      rw [h3] at hbc
      have hac : cellLE asc (getCell a k) (getCell c k) = true :=
        cellLE_trans asc _ _ _ h1 h3
      rw [hac, if_pos rfl]
      cases h2 : cellLE asc (getCell b k) (getCell a k) with
      | false =>
          -- strict at this key between a and b
          cases h5 : cellLE asc (getCell c k) (getCell a k) with
          | false => simp
          | true =>
              exfalso
              have hba : cellLE asc (getCell b k) (getCell a k) = true :=
                cellLE_trans asc _ _ _ h3 h5
              rw [h2] at hba
              exact Bool.noConfusion hba
      | true =>
      rw [h2, if_pos rfl] at hab
      cases h4 : cellLE asc (getCell c k) (getCell b k) with
      | false =>
          -- strict at this key between b and c
          cases h5 : cellLE asc (getCell c k) (getCell a k) with
          | false => simp
          | true =>
              exfalso
              have hcb : cellLE asc (getCell c k) (getCell b k) = true :=
                cellLE_trans asc _ _ _ h5 h1
              rw [h4] at hcb
              exact Bool.noConfusion hcb
      | true =>
      rw [h4, if_pos rfl] at hbc
      cases h5 : cellLE asc (getCell c k) (getCell a k) with
      | false => simp
      | true =>
          simp only [if_pos rfl]
          exact ih a b c hab hbc

/-! ### Theorems about the deterministic sorter -/

/-- C6: after `preprocess_data` runs with any ordered list of
`(field, ascending)` sort keys, (1) every adjacent pair of rows compares
lexicographically key-by-key in the declared order and direction (under the
per-key order the sorter uses, with nulls placed last); (2) the output is
the index-projection of sorting the index-tagged rows with the
index-tie-breaking order, and (3) in that index-tagged sort any two rows
comparing equal on every sort key (≤ holds both ways) keep their original
relative order — the sort is stable. -/
theorem sorter_sorted_stable (sortBy : List (String × Bool)) (df : DFrame) :
    ((preprocess_data sortBy df).rows).Chain' (fun a b => rowLE sortBy a b = true)
    ∧ (List.mergeSort ((df.rows.map priceNumRow).enum)
          (List.enumLE (rowLE sortBy))).map Prod.snd = (preprocess_data sortBy df).rows
    ∧ (∀ (i : Nat) (a : XRow) (j : Nat) (b : XRow),
        List.Sublist [(i, a), (j, b)]
          (List.mergeSort ((df.rows.map priceNumRow).enum) (List.enumLE (rowLE sortBy))) →
        rowLE sortBy a b = true → rowLE sortBy b a = true → i < j) := by
  have htotal : ∀ a b : XRow, rowLE sortBy a b || rowLE sortBy b a := by
    intro a b
    rcases rowLE_total sortBy a b with h | h <;> simp [h]
  have htrans : ∀ a b c : XRow,
      rowLE sortBy a b → rowLE sortBy b c → rowLE sortBy a c :=
    fun a b c hab hbc => rowLE_trans sortBy a b c hab hbc
  refine ⟨?_, ?_, ?_⟩
  · exact (List.sorted_mergeSort htrans htotal (df.rows.map priceNumRow)).chain'
  · exact List.mergeSort_enum
  · intro i a j b hsub hab hba
    have hpw := List.sorted_mergeSort
      (fun x y z => List.enumLE_trans htrans x y z)
      (fun x y => List.enumLE_total htotal x y)
      ((df.rows.map priceNumRow).enum)
    have h2 := hpw.sublist hsub
    have hrel : List.enumLE (rowLE sortBy) (i, a) (j, b) = true :=
      List.rel_of_pairwise_cons h2 (List.mem_singleton_self _)
    have hij : i ≤ j := by
      simp only [List.enumLE, hab, hba, if_pos rfl] at hrel
      simpa using hrel
    have hmapsub : List.Sublist [i, j]
        ((List.mergeSort ((df.rows.map priceNumRow).enum)
          (List.enumLE (rowLE sortBy))).map Prod.fst) := by
      have := hsub.map Prod.fst
      simpa using this
    have hnd : ((List.mergeSort ((df.rows.map priceNumRow).enum)
        (List.enumLE (rowLE sortBy))).map Prod.fst).Nodup := by
      have hperm := List.mergeSort_perm ((df.rows.map priceNumRow).enum)
        (List.enumLE (rowLE sortBy))
      have hm := hperm.map Prod.fst
      rw [List.enum_map_fst] at hm
      exact hm.nodup_iff.mpr (List.nodup_range _)
    have hne : i ≠ j := by
      have hnd2 := hnd.sublist hmapsub
      simp at hnd2
      exact hnd2
    omega

/-- Witness for C6: two identical one-column rows keep their input order. -/
theorem sorter_sorted_stable_witness :
    List.mergeSort (([[("VIN", Cell.s "A")], [("VIN", Cell.s "A")]].map priceNumRow).enum)
        (List.enumLE (rowLE [("VIN", true)]))
      = [(0, [("VIN", Cell.s "A")]), (1, [("VIN", Cell.s "A")])]
    ∧ (0 : Nat) < 1 := by
  have htag : List.mergeSort
      (([[("VIN", Cell.s "A")], [("VIN", Cell.s "A")]].map priceNumRow).enum)
      (List.enumLE (rowLE [("VIN", true)]))
      = [(0, [("VIN", Cell.s "A")]), (1, [("VIN", Cell.s "A")])] := by
    simp [List.mergeSort, List.splitInTwo, List.splitAt_eq, List.merge, List.enum,
      List.enumFrom, List.enumLE, priceNumRow, rowLE, getCell, cellLE, strLE]
  refine ⟨htag, ?_⟩
  exact (sorter_sorted_stable [("VIN", true)]
      ⟨["VIN"], [[("VIN", Cell.s "A")], [("VIN", Cell.s "A")]]⟩).2.2
    0 [("VIN", Cell.s "A")] 1 [("VIN", Cell.s "A")]
    (htag ▸ List.Sublist.refl _) (by decide) (by decide)

/-! ### Cell access under column assignment -/

/-- Searching the assigned key after a `setCell`-style in-place update. -/
theorem find?_keyUpdate (r : XRow) (k : String) (c : Cell) :
    (r.map (fun p => if p.1 == k then (p.1, c) else p)).find? (fun p => p.1 == k)
      = (r.find? (fun p => p.1 == k)).map (fun p => (p.1, c)) := by
  induction r with
  | nil => rfl
  | cons p rest ih =>
      by_cases hb : (p.1 == k) = true
      · have hg : (if (p.1 == k) = true then (p.1, c) else p) = (p.1, c) := if_pos hb
        have e1 : List.find? (fun q : String × Cell => q.1 == k)
            ((p.1, c) :: rest.map (fun q => if q.1 == k then (q.1, c) else q))
            = some (p.1, c) := List.find?_cons_of_pos _ hb
        have e2 : List.find? (fun q : String × Cell => q.1 == k) (p :: rest) = some p :=
          List.find?_cons_of_pos _ hb
        rw [List.map_cons, hg, e1, e2]
        rfl
      · have hg : (if (p.1 == k) = true then (p.1, c) else p) = p := if_neg hb
        have e1 : List.find? (fun q : String × Cell => q.1 == k)
            (p :: rest.map (fun q => if q.1 == k then (q.1, c) else q))
            = List.find? (fun q : String × Cell => q.1 == k)
                (rest.map (fun q => if q.1 == k then (q.1, c) else q)) :=
          List.find?_cons_of_neg _ hb
        have e2 : List.find? (fun q : String × Cell => q.1 == k) (p :: rest)
            = List.find? (fun q : String × Cell => q.1 == k) rest :=
          List.find?_cons_of_neg _ hb
        rw [List.map_cons, hg, e1, e2]
        exact ih

/-- Searching a different key is unaffected by a `setCell`-style update. -/
theorem find?_keyUpdate_ne (r : XRow) (k kx : String) (c : Cell) (hne : kx ≠ k) :
    (r.map (fun p => if p.1 == k then (p.1, c) else p)).find? (fun p => p.1 == kx)
      = r.find? (fun p => p.1 == kx) := by
  induction r with
  | nil => rfl
  | cons p rest ih =>
      by_cases hb : (p.1 == k) = true
      · have hpk : p.1 = k := by simpa using hb
        have hb2 : ¬ ((p.1 == kx) = true) := by
          rw [hpk]
          simp [Ne.symm hne]
        have hg : (if (p.1 == k) = true then (p.1, c) else p) = (p.1, c) := if_pos hb
        have e1 : List.find? (fun q : String × Cell => q.1 == kx)
            ((p.1, c) :: rest.map (fun q => if q.1 == k then (q.1, c) else q))
            = List.find? (fun q : String × Cell => q.1 == kx)
                (rest.map (fun q => if q.1 == k then (q.1, c) else q)) :=
          List.find?_cons_of_neg _ hb2
        have e2 : List.find? (fun q : String × Cell => q.1 == kx) (p :: rest)
            = List.find? (fun q : String × Cell => q.1 == kx) rest :=
          List.find?_cons_of_neg _ hb2
        rw [List.map_cons, hg, e1, e2]
        exact ih
      · have hg : (if (p.1 == k) = true then (p.1, c) else p) = p := if_neg hb
        by_cases hb2 : (p.1 == kx) = true
        · have e1 : List.find? (fun q : String × Cell => q.1 == kx)
              (p :: rest.map (fun q => if q.1 == k then (q.1, c) else q)) = some p :=
            List.find?_cons_of_pos _ hb2
          have e2 : List.find? (fun q : String × Cell => q.1 == kx) (p :: rest) = some p :=
            List.find?_cons_of_pos _ hb2
          rw [List.map_cons, hg, e1, e2]
        · have e1 : List.find? (fun q : String × Cell => q.1 == kx)
              (p :: rest.map (fun q => if q.1 == k then (q.1, c) else q))
              = List.find? (fun q : String × Cell => q.1 == kx)
                  (rest.map (fun q => if q.1 == k then (q.1, c) else q)) :=
            List.find?_cons_of_neg _ hb2
          have e2 : List.find? (fun q : String × Cell => q.1 == kx) (p :: rest)
              = List.find? (fun q : String × Cell => q.1 == kx) rest :=
            List.find?_cons_of_neg _ hb2
          rw [List.map_cons, hg, e1, e2]
          exact ih

/-- Reading back the column just assigned by `setCell`. -/
theorem getCell_setCell (r : XRow) (k : String) (c : Cell) :
    getCell (setCell r k c) k = c := by
  unfold setCell
  by_cases h : r.any (fun p => p.1 == k) = true
  · rw [if_pos h]
    unfold getCell
    rw [find?_keyUpdate]
    have hsome : (r.find? (fun p => p.1 == k)).isSome := by
      rw [List.find?_isSome]
      rw [List.any_eq_true] at h
      obtain ⟨p, hp, hpk⟩ := h
      exact ⟨p, hp, hpk⟩
    obtain ⟨p, hp⟩ := Option.isSome_iff_exists.mp hsome
    rw [hp]
    rfl
  · rw [if_neg h]
    unfold getCell
    rw [List.find?_append]
    have hnone : r.find? (fun p => p.1 == k) = none := by
      rw [List.find?_eq_none]
      intro x hx hxk
      exact h (List.any_eq_true.mpr ⟨x, hx, hxk⟩)
    rw [hnone]
    simp [List.find?]

/-- Reading any other column is unaffected by `setCell`. -/
theorem getCell_setCell_ne (r : XRow) (k kx : String) (c : Cell) (hne : kx ≠ k) :
    getCell (setCell r k c) kx = getCell r kx := by
  unfold setCell
  by_cases h : r.any (fun p => p.1 == k) = true
  · rw [if_pos h]
    unfold getCell
    rw [find?_keyUpdate_ne r k kx c hne]
  · rw [if_neg h]
    unfold getCell
    rw [List.find?_append]
    have hlast : List.find? (fun p => p.1 == kx) [(k, c)] = none := by
      have : (k == kx) = false := beq_eq_false_iff_ne.mpr (Ne.symm hne)
      simp [List.find?, this]
    rw [hlast]
    cases r.find? (fun p => p.1 == kx) <;> rfl

/-! ### Indexing the shift-compare construction -/

/-- Length of the predecessor-aware map. -/
theorem withPrevMap_length (f : Option XRow → XRow → XRow) (rows : List XRow) :
    (withPrevMap f rows).length = rows.length := by
  simp [withPrevMap]

/-- First element of the predecessor-aware map: no predecessor. -/
theorem withPrevMap_getElem_zero (f : Option XRow → XRow → XRow) (rows : List XRow)
    (cur : XRow) (hc : rows[0]? = some cur) :
    (withPrevMap f rows)[0]? = some (f none cur) := by
  unfold withPrevMap
  rw [List.getElem?_zipWith]
  simp [hc]

/-- Later elements of the predecessor-aware map: the predecessor is the
previous row. -/
theorem withPrevMap_getElem_succ (f : Option XRow → XRow → XRow) (rows : List XRow)
    (j : Nat) (prev cur : XRow) (hp : rows[j]? = some prev) (hc : rows[j + 1]? = some cur) :
    (withPrevMap f rows)[j + 1]? = some (f (some prev) cur) := by
  unfold withPrevMap
  rw [List.getElem?_zipWith]
  have h1 : (none :: rows.map some)[j + 1]? = some (some prev) := by
    simpa using congrArg (Option.map some) hp
  rw [h1, hc]

/-! ### Theorems about the adjacency classifiers -/

/-- C4: under the `"default"` config, the derived `COUNT` of row 0 is always
0; the `COUNT` of row `j+1` is 1 exactly when `VIN`, `TERM`, and
`START DATE` match the previous row (pandas equality) and the numeric
trigger `PRICE == 1.6` holds on the row, and 0 otherwise; and on the
two-row scenario dataset (identical `VIN`/`TERM`/`START DATE`/`PRICE 1.6`
rows), sorting then classifying yields `COUNT` values 0 then 1. -/
theorem count_default_characterization :
    (∀ (rows : List XRow) (cur : XRow), rows[0]? = some cur →
      ((countRows1 rows)[0]?.map (fun r => getCell r "COUNT")) = some (Cell.n ⟨0, 0⟩))
    ∧ (∀ (rows : List XRow) (j : Nat) (prev cur : XRow),
        rows[j]? = some prev → rows[j + 1]? = some cur →
        ((countRows1 rows)[j + 1]?.map (fun r => getCell r "COUNT"))
          = some (if cellEq (getCell cur "VIN") (getCell prev "VIN") = true
                    ∧ cellEq (getCell cur "TERM") (getCell prev "TERM") = true
                    ∧ cellEq (getCell cur "START DATE") (getCell prev "START DATE") = true
                    ∧ cellEq (getCell cur "PRICE") (Cell.n ⟨16, 1⟩) = true
                  then Cell.n ⟨1, 0⟩ else Cell.n ⟨0, 0⟩))
    ∧ ((countRows1 (preprocess_data [("VIN", true), ("PRICE", false)]
          ⟨["VIN", "TERM", "START DATE", "PRICE"],
            [[("VIN", Cell.s "A1"), ("TERM", Cell.s "12"),
              ("START DATE", Cell.s "2024-01-01"), ("PRICE", Cell.s "1.6")],
             [("VIN", Cell.s "A1"), ("TERM", Cell.s "12"),
              ("START DATE", Cell.s "2024-01-01"), ("PRICE", Cell.s "1.6")]]⟩).rows).map
        (fun r => getCell r "COUNT") = [Cell.n ⟨0, 0⟩, Cell.n ⟨1, 0⟩]) := by
  refine ⟨?_, ?_, ?_⟩
  · intro rows cur hc
    rw [countRows1, withPrevMap_getElem_zero _ _ _ hc]
    simp [count1Flag, countCell, getCell_setCell]
  · intro rows j prev cur hp hc
    rw [countRows1, withPrevMap_getElem_succ _ _ _ _ _ hp hc]
    simp only [Option.map_some']
    rw [getCell_setCell]
    cases hf : count1Flag (some prev) cur with
    | true =>
        rw [if_pos]
        · rfl
        · simpa [count1Flag, Bool.and_eq_true, and_assoc] using hf
    | false =>
        rw [if_neg]
        · rfl
        · intro hcontra
          obtain ⟨h1, h2, h3, h4⟩ := hcontra
          simp [count1Flag, h1, h2, h3, h4] at hf
  · simp [preprocess_data, List.mergeSort, List.splitInTwo, List.splitAt_eq, List.merge]
    decide

/-- Witness for C4 on the concrete scenario rows at indices 0 and 1. -/
theorem count_default_characterization_witness :
    ([[("VIN", Cell.s "A1"), ("PRICE", Cell.n ⟨16, 1⟩)],
      [("VIN", Cell.s "A1"), ("PRICE", Cell.n ⟨16, 1⟩)]] : List XRow)[0]?
        = some [("VIN", Cell.s "A1"), ("PRICE", Cell.n ⟨16, 1⟩)]
    ∧ ((countRows1 [[("VIN", Cell.s "A1"), ("PRICE", Cell.n ⟨16, 1⟩)],
          [("VIN", Cell.s "A1"), ("PRICE", Cell.n ⟨16, 1⟩)]])[1]?.map
        (fun r => getCell r "COUNT"))
      = some (if cellEq (getCell [("VIN", Cell.s "A1"), ("PRICE", Cell.n ⟨16, 1⟩)] "VIN")
                  (getCell [("VIN", Cell.s "A1"), ("PRICE", Cell.n ⟨16, 1⟩)] "VIN") = true
                ∧ cellEq (getCell [("VIN", Cell.s "A1"), ("PRICE", Cell.n ⟨16, 1⟩)] "TERM")
                  (getCell [("VIN", Cell.s "A1"), ("PRICE", Cell.n ⟨16, 1⟩)] "TERM") = true
                ∧ cellEq (getCell [("VIN", Cell.s "A1"), ("PRICE", Cell.n ⟨16, 1⟩)] "START DATE")
                  (getCell [("VIN", Cell.s "A1"), ("PRICE", Cell.n ⟨16, 1⟩)] "START DATE") = true
                ∧ cellEq (getCell [("VIN", Cell.s "A1"), ("PRICE", Cell.n ⟨16, 1⟩)] "PRICE")
                  (Cell.n ⟨16, 1⟩) = true
              then Cell.n ⟨1, 0⟩ else Cell.n ⟨0, 0⟩) := by
  refine ⟨rfl, ?_⟩
  exact count_default_characterization.2.1
    [[("VIN", Cell.s "A1"), ("PRICE", Cell.n ⟨16, 1⟩)],
      [("VIN", Cell.s "A1"), ("PRICE", Cell.n ⟨16, 1⟩)]] 0
    [("VIN", Cell.s "A1"), ("PRICE", Cell.n ⟨16, 1⟩)]
    [("VIN", Cell.s "A1"), ("PRICE", Cell.n ⟨16, 1⟩)] rfl rfl

/-- C5: for both adjacency formulas, the first row of any dataset gets
derived value 0, and whenever some compared match-field is null in a row
and also null in its predecessor, the derived value of that row is 0:
null never matches null under the formulas' equality. -/
theorem count_null_never_matches :
    (∀ (rows : List XRow) (cur : XRow), rows[0]? = some cur →
      ((countRows1 rows)[0]?.map (fun r => getCell r "COUNT")) = some (Cell.n ⟨0, 0⟩)
      ∧ ((countRowsE2 rows)[0]?.map (fun r => getCell r "COUNT")) = some (Cell.n ⟨0, 0⟩))
    ∧ (∀ (rows : List XRow) (j : Nat) (prev cur : XRow) (k : String),
        rows[j]? = some prev → rows[j + 1]? = some cur →
        getCell cur k = Cell.null → getCell prev k = Cell.null →
        (k ∈ (["VIN", "TERM", "START DATE"] : List String) →
          ((countRows1 rows)[j + 1]?.map (fun r => getCell r "COUNT"))
            = some (Cell.n ⟨0, 0⟩))
        ∧ (k ∈ (["FORM", "VIN"] : List String) →
          ((countRowsE2 rows)[j + 1]?.map (fun r => getCell r "COUNT"))
            = some (Cell.n ⟨0, 0⟩))) := by
  constructor
  · intro rows cur hc
    constructor
    · rw [countRows1, withPrevMap_getElem_zero _ _ _ hc]
      simp [count1Flag, countCell, getCell_setCell]
    · rw [countRowsE2, withPrevMap_getElem_zero _ _ _ hc]
      simp [countE2Flag, countCell, getCell_setCell]
  · intro rows j prev cur k hp hc hnc hnp
    constructor
    · intro hk
      rw [countRows1, withPrevMap_getElem_succ _ _ _ _ _ hp hc]
      simp only [Option.map_some']
      rw [getCell_setCell]
      have hflag : count1Flag (some prev) cur = false := by
        simp only [List.mem_cons, List.not_mem_nil, or_false] at hk
        rcases hk with hk | hk | hk
        · subst hk; simp [count1Flag, hnc, hnp, cellEq]
        · subst hk; simp [count1Flag, hnc, hnp, cellEq]
        · subst hk; simp [count1Flag, hnc, hnp, cellEq]
      rw [hflag]
      rfl
    · intro hk
      rw [countRowsE2, withPrevMap_getElem_succ _ _ _ _ _ hp hc]
      simp only [Option.map_some']
      rw [getCell_setCell]
      have hflag : countE2Flag (some prev) cur = false := by
        simp only [List.mem_cons, List.not_mem_nil, or_false] at hk
        rcases hk with hk | hk
        · subst hk; simp [countE2Flag, hnc, hnp, cellEq]
        · subst hk; simp [countE2Flag, hnc, hnp, cellEq]
      rw [hflag]
      rfl

/-- Witness for C5: two rows with no `VIN` column (so `VIN` reads null in
both) yield derived value 0 under both formulas. -/
theorem count_null_never_matches_witness :
    ((countRows1 [[("TERM", Cell.s "12")], [("TERM", Cell.s "12")]])[1]?.map
        (fun r => getCell r "COUNT")) = some (Cell.n ⟨0, 0⟩)
    ∧ ((countRowsE2 [[("TERM", Cell.s "12")], [("TERM", Cell.s "12")]])[1]?.map
        (fun r => getCell r "COUNT")) = some (Cell.n ⟨0, 0⟩) := by
  have h := count_null_never_matches.2
    [[("TERM", Cell.s "12")], [("TERM", Cell.s "12")]] 0
    [("TERM", Cell.s "12")] [("TERM", Cell.s "12")] "VIN" rfl rfl rfl rfl
  exact ⟨h.1 (by decide), h.2 (by decide)⟩

/-! ### Fixpoint lemmas for re-running sort and classification (C7) -/

/-- `pd.to_numeric` is idempotent on one cell. -/
theorem toNumericCell_idem (c : Cell) : toNumericCell (toNumericCell c) = toNumericCell c := by
  cases c with
  | s v =>
      cases h : floatParse? (trimChars v.data) with
      | none => simp [toNumericCell, h]
      | some d => simp [toNumericCell, h]
  | n d => rfl
  | null => rfl

/-- The `PRICE` conversion is idempotent on one row. -/
theorem priceNumRow_idem (r : XRow) : priceNumRow (priceNumRow r) = priceNumRow r := by
  unfold priceNumRow
  rw [List.map_map]
  apply List.map_congr_left
  intro q _
  by_cases hb : (q.1 == "PRICE") = true
  · simp [Function.comp, hb, toNumericCell_idem]
  · simp [Function.comp, hb]

/-- Unfolding `setCell` when the column exists. -/
theorem setCell_eq_of_any (r : XRow) (k : String) (c : Cell)
    (h : r.any (fun p => p.1 == k) = true) :
    setCell r k c = r.map (fun p => if p.1 == k then (p.1, c) else p) := by
  unfold setCell
  rw [if_pos h]

/-- Unfolding `setCell` when the column is new. -/
theorem setCell_eq_of_not_any (r : XRow) (k : String) (c : Cell)
    (h : ¬ (r.any (fun p => p.1 == k) = true)) :
    setCell r k c = r ++ [(k, c)] := by
  unfold setCell
  rw [if_neg h]

/-- The `PRICE` conversion commutes with assigning the `COUNT` column. -/
theorem priceNumRow_setCell (r : XRow) (c : Cell) :
    priceNumRow (setCell r "COUNT" c) = setCell (priceNumRow r) "COUNT" c := by
  have hany : ((r.map (fun p => if p.1 == "PRICE" then (p.1, toNumericCell p.2) else p)).any
      (fun p => p.1 == "COUNT")) = r.any (fun p => p.1 == "COUNT") := by
    rw [List.any_map]
    congr 1
    funext q
    by_cases hb : (q.1 == "PRICE") = true <;> simp [Function.comp, hb]
  by_cases h : r.any (fun p => p.1 == "COUNT") = true
  · rw [setCell_eq_of_any r "COUNT" c h,
      setCell_eq_of_any (priceNumRow r) "COUNT" c (by rw [priceNumRow, hany]; exact h)]
    unfold priceNumRow
    rw [List.map_map, List.map_map]
    apply List.map_congr_left
    intro q _
    by_cases hb1 : (q.1 == "COUNT") = true
    · have e : q.1 = "COUNT" := by simpa using hb1
      have hb2 : (q.1 == "PRICE") = false := by rw [e]; decide
      simp [Function.comp, hb1, hb2, e]
    · by_cases hb2 : (q.1 == "PRICE") = true
      · simp [Function.comp, hb1, hb2]
      · simp [Function.comp, hb1, hb2]
  · rw [setCell_eq_of_not_any r "COUNT" c h,
      setCell_eq_of_not_any (priceNumRow r) "COUNT" c (by rw [priceNumRow, hany]; exact h)]
    unfold priceNumRow
    rw [List.map_append]
    congr 1

/-- Overwriting the same column twice keeps only the last assignment. -/
theorem setCell_setCell (r : XRow) (k : String) (v w : Cell) :
    setCell (setCell r k v) k w = setCell r k w := by
  by_cases h : r.any (fun p => p.1 == k) = true
  · have hany2 : ((r.map (fun p => if p.1 == k then (p.1, v) else p)).any
        (fun p => p.1 == k)) = true := by
      rw [List.any_map]
      have e : ((fun p : String × Cell => p.1 == k)
          ∘ (fun p : String × Cell => if p.1 == k then (p.1, v) else p))
          = (fun p : String × Cell => p.1 == k) := by
        funext q
        by_cases hb : (q.1 == k) = true <;> simp [Function.comp, hb]
      rw [e]
      exact h
    rw [setCell_eq_of_any r k v h, setCell_eq_of_any _ k w hany2,
      setCell_eq_of_any r k w h, List.map_map]
    apply List.map_congr_left
    intro q _
    by_cases hb : (q.1 == k) = true <;> simp [Function.comp, hb]
  · have hany2 : ((r ++ [(k, v)]).any (fun p => p.1 == k)) = true := by
      rw [List.any_append]
      simp
    rw [setCell_eq_of_not_any r k v h, setCell_eq_of_any _ k w hany2,
      setCell_eq_of_not_any r k w h, List.map_append]
    have h1 : r.map (fun p => if p.1 == k then (p.1, w) else p) = r := by
      have h2 : ∀ q ∈ r, (if q.1 == k then (q.1, w) else q) = q := by
        intro q hq
        have hf : (q.1 == k) = false := by
          rcases hb : (q.1 == k) with _ | _
          · rfl
          · exact absurd (List.any_eq_true.mpr ⟨q, hq, hb⟩) h
        simp [hf]
      calc r.map (fun p => if p.1 == k then (p.1, w) else p) = r.map id :=
            List.map_congr_left h2
        _ = r := List.map_id r
    rw [h1]
    simp

/-- The multi-key comparison ignores the `COUNT` column when no sort key
names it. -/
theorem rowLE_setCell (sortBy : List (String × Bool))
    (hk : ∀ p ∈ sortBy, p.1 ≠ "COUNT") :
    ∀ a b x y, rowLE sortBy (setCell a "COUNT" x) (setCell b "COUNT" y)
      = rowLE sortBy a b := by
  induction sortBy with
  | nil => intro a b x y; rfl
  | cons p rest ih =>
      intro a b x y
      obtain ⟨k, asc⟩ := p
      have hkne : k ≠ "COUNT" := hk (k, asc) (List.mem_cons_self _ _)
      simp only [rowLE]
      rw [getCell_setCell_ne a "COUNT" k x hkne, getCell_setCell_ne b "COUNT" k y hkne,
        ih (fun q hq => hk q (List.mem_cons_of_mem _ hq)) a b x y]

/-- The default adjacency formula ignores the `COUNT` column. -/
theorem count1Flag_setCell (p c : XRow) (x y : Cell) :
    count1Flag (some (setCell p "COUNT" x)) (setCell c "COUNT" y)
      = count1Flag (some p) c := by
  simp only [count1Flag]
  rw [getCell_setCell_ne c "COUNT" "VIN" y (by decide),
    getCell_setCell_ne p "COUNT" "VIN" x (by decide),
    getCell_setCell_ne c "COUNT" "TERM" y (by decide),
    getCell_setCell_ne p "COUNT" "TERM" x (by decide),
    getCell_setCell_ne c "COUNT" "START DATE" y (by decide),
    getCell_setCell_ne p "COUNT" "START DATE" x (by decide),
    getCell_setCell_ne c "COUNT" "PRICE" y (by decide)]

/-- The custom E2 adjacency formula ignores the `COUNT` column. -/
theorem countE2Flag_setCell (p c : XRow) (x y : Cell) :
    countE2Flag (some (setCell p "COUNT" x)) (setCell c "COUNT" y)
      = countE2Flag (some p) c := by
  simp only [countE2Flag]
  rw [getCell_setCell_ne c "COUNT" "FORM" y (by decide),
    getCell_setCell_ne p "COUNT" "FORM" x (by decide),
    getCell_setCell_ne c "COUNT" "VIN" y (by decide),
    getCell_setCell_ne p "COUNT" "VIN" x (by decide),
    getCell_setCell_ne c "COUNT" "PURE RISK TYPE" y (by decide),
    getCell_setCell_ne p "COUNT" "PURE RISK TYPE" x (by decide)]

/-- Option-indexed description of the predecessor-aware map. -/
theorem withPrevMap_getElem? (f : Option XRow → XRow → XRow) (rows : List XRow)
    (i : Nat) (hi : i < rows.length) :
    (withPrevMap f rows)[i]?
      = some (f (if i = 0 then none else some (rows.get ⟨i - 1, by omega⟩))
          (rows.get ⟨i, hi⟩)) := by
  cases i with
  | zero =>
      simp only [if_pos rfl]
      exact withPrevMap_getElem_zero f rows _ (List.getElem?_eq_getElem hi)
  | succ j =>
      have hj : j < rows.length := by omega
      simp only [Nat.succ_ne_zero, if_neg, if_false]
      exact withPrevMap_getElem_succ f rows j _ _
        (List.getElem?_eq_getElem hj) (List.getElem?_eq_getElem hi)

/-- First element of the predecessor-aware map, `get` form. -/
theorem withPrevMap_get_zero (f : Option XRow → XRow → XRow) (rows : List XRow)
    (h0 : 0 < rows.length) :
    (withPrevMap f rows).get ⟨0, by rw [withPrevMap_length]; exact h0⟩
      = f none (rows.get ⟨0, h0⟩) := by
  have h1 := withPrevMap_getElem_zero f rows _ (List.getElem?_eq_getElem h0)
  have h2 : (withPrevMap f rows)[0]?
      = some ((withPrevMap f rows).get ⟨0, by rw [withPrevMap_length]; exact h0⟩) :=
    List.getElem?_eq_getElem _
  rw [h1] at h2
  exact (Option.some.inj h2).symm

/-- Later elements of the predecessor-aware map, `get` form. -/
theorem withPrevMap_get_succ (f : Option XRow → XRow → XRow) (rows : List XRow)
    (j : Nat) (hj1 : j + 1 < rows.length) :
    (withPrevMap f rows).get ⟨j + 1, by rw [withPrevMap_length]; exact hj1⟩
      = f (some (rows.get ⟨j, by omega⟩)) (rows.get ⟨j + 1, hj1⟩) := by
  have h1 := withPrevMap_getElem_succ f rows j _ _
    (List.getElem?_eq_getElem (show j < rows.length by omega))
    (List.getElem?_eq_getElem hj1)
  have h2 : (withPrevMap f rows)[j + 1]?
      = some ((withPrevMap f rows).get ⟨j + 1, by rw [withPrevMap_length]; exact hj1⟩) :=
    List.getElem?_eq_getElem _
  rw [h1] at h2
  exact (Option.some.inj h2).symm

/-- Master fixpoint lemma behind C7: for any adjacency flag that ignores the
`COUNT` column (and is false on the first row), and any sort keys that do
not name `COUNT`, the classified output of sort-then-classify is untouched
by converting `PRICE` again, by sorting again, and by classifying again. -/
theorem classify_fixpoint (flg : Option XRow → XRow → Bool)
    (sortBy : List (String × Bool))
    (hflg : ∀ p c x y, flg (some (setCell p "COUNT" x)) (setCell c "COUNT" y)
      = flg (some p) c)
    (hflg0 : ∀ c, flg none c = false)
    (hsort : ∀ a b x y, rowLE sortBy (setCell a "COUNT" x) (setCell b "COUNT" y)
      = rowLE sortBy a b)
    (rows0 : List XRow) :
    ((withPrevMap (fun p c => setCell c "COUNT" (countCell (flg p c)))
        (List.mergeSort (rows0.map priceNumRow) (rowLE sortBy))).map priceNumRow
      = withPrevMap (fun p c => setCell c "COUNT" (countCell (flg p c)))
          (List.mergeSort (rows0.map priceNumRow) (rowLE sortBy)))
    ∧ (List.mergeSort
          (withPrevMap (fun p c => setCell c "COUNT" (countCell (flg p c)))
            (List.mergeSort (rows0.map priceNumRow) (rowLE sortBy))) (rowLE sortBy)
        = withPrevMap (fun p c => setCell c "COUNT" (countCell (flg p c)))
            (List.mergeSort (rows0.map priceNumRow) (rowLE sortBy)))
    ∧ (withPrevMap (fun p c => setCell c "COUNT" (countCell (flg p c)))
          (withPrevMap (fun p c => setCell c "COUNT" (countCell (flg p c)))
            (List.mergeSort (rows0.map priceNumRow) (rowLE sortBy)))
        = withPrevMap (fun p c => setCell c "COUNT" (countCell (flg p c)))
            (List.mergeSort (rows0.map priceNumRow) (rowLE sortBy))) := by
  set f : Option XRow → XRow → XRow :=
    fun p c => setCell c "COUNT" (countCell (flg p c)) with hf
  set S : List XRow := List.mergeSort (rows0.map priceNumRow) (rowLE sortBy) with hS
  have hSfix : ∀ r ∈ S, priceNumRow r = r := by
    intro r hr
    rw [hS, List.mem_mergeSort] at hr
    obtain ⟨r0, _, rfl⟩ := List.mem_map.mp hr
    exact priceNumRow_idem r0
  have hWlen : (withPrevMap f S).length = S.length := withPrevMap_length f S
  have hget : ∀ i : Fin (withPrevMap f S).length, ∃ (hi : i.1 < S.length) (x : Cell),
      (withPrevMap f S).get i = setCell (S.get ⟨i.1, hi⟩) "COUNT" x := by
    intro i
    obtain ⟨iv, hiv⟩ := i
    have hiS : iv < S.length := lt_of_lt_of_le hiv (le_of_eq hWlen)
    refine ⟨hiS, ?_⟩
    cases iv with
    | zero => exact ⟨_, withPrevMap_get_zero f S hiS⟩
    | succ j => exact ⟨_, withPrevMap_get_succ f S j hiS⟩
  have h1 : (withPrevMap f S).map priceNumRow = withPrevMap f S := by
    apply List.ext_getElem?
    intro i
    rw [List.getElem?_map]
    by_cases hi : i < (withPrevMap f S).length
    · rw [List.getElem?_eq_getElem hi]
      simp only [Option.map_some']
      congr 1
      have hgi := hget ⟨i, hi⟩
      obtain ⟨hiS, x, hx⟩ := hgi
      have : (withPrevMap f S).get ⟨i, hi⟩ = (withPrevMap f S)[i] := rfl
      rw [← this, hx, priceNumRow_setCell, hSfix _ (List.get_mem S _ _)]
    · have hnone : (withPrevMap f S)[i]? = none := by
        rw [List.getElem?_eq_none]
        omega
      rw [hnone]
      rfl
  have htotal : ∀ a b : XRow, rowLE sortBy a b || rowLE sortBy b a := by
    intro a b
    rcases rowLE_total sortBy a b with h | h <;> simp [h]
  have hSsorted : List.Pairwise (fun a b => rowLE sortBy a b = true) S := by
    rw [hS]
    exact List.sorted_mergeSort (fun a b c => rowLE_trans sortBy a b c) htotal _
  have hWsorted : List.Pairwise (fun a b => rowLE sortBy a b = true) (withPrevMap f S) := by
    rw [List.pairwise_iff_get] at hSsorted ⊢
    intro i j hij
    obtain ⟨hi, x, hx⟩ := hget i
    obtain ⟨hj, y, hy⟩ := hget j
    rw [hx, hy, hsort]
    exact hSsorted ⟨i.1, hi⟩ ⟨j.1, hj⟩ hij
  have h2 : List.mergeSort (withPrevMap f S) (rowLE sortBy) = withPrevMap f S :=
    List.mergeSort_of_sorted hWsorted
  have h3 : withPrevMap f (withPrevMap f S) = withPrevMap f S := by
    apply List.ext_getElem?
    intro i
    by_cases hiW : i < (withPrevMap f S).length
    · have hiS : i < S.length := lt_of_lt_of_le hiW (le_of_eq hWlen)
      cases i with
      | zero =>
          rw [withPrevMap_getElem_zero f (withPrevMap f S) _
              (List.getElem?_eq_getElem hiW),
            withPrevMap_getElem_zero f S _ (List.getElem?_eq_getElem hiS)]
          congr 1
          have e0 : (withPrevMap f S).get ⟨0, hiW⟩ = f none (S.get ⟨0, hiS⟩) :=
            withPrevMap_get_zero f S hiS
          have e0x : (withPrevMap f S)[0] = f none (S.get ⟨0, hiS⟩) := e0
          rw [e0x]
          simp only [hf]
          rw [hflg0, hflg0, setCell_setCell, hflg0]
          rfl
      | succ j =>
          have hjW : j < (withPrevMap f S).length := by omega
          have hjS : j < S.length := by omega
          rw [withPrevMap_getElem_succ f (withPrevMap f S) j _ _
              (List.getElem?_eq_getElem hjW) (List.getElem?_eq_getElem hiW),
            withPrevMap_getElem_succ f S j _ _
              (List.getElem?_eq_getElem hjS) (List.getElem?_eq_getElem hiS)]
          congr 1
          have ej : (withPrevMap f S)[j] = f (if h0 : j = 0 then none
              else some (S.get ⟨j - 1, by omega⟩)) (S.get ⟨j, hjS⟩) := by
            cases j with
            | zero => exact withPrevMap_get_zero f S hjS
            | succ jj => exact withPrevMap_get_succ f S jj hjS
          have ei : (withPrevMap f S)[j + 1] = f (some (S.get ⟨j, hjS⟩))
              (S.get ⟨j + 1, hiS⟩) := withPrevMap_get_succ f S j hiS
          rw [ej, ei]
          simp only [hf]
          rw [hflg, setCell_setCell]
          rfl
    · have hnone1 : (withPrevMap f (withPrevMap f S))[i]? = none := by
        rw [List.getElem?_eq_none]
        rw [withPrevMap_length]
        omega
      have hnone2 : (withPrevMap f S)[i]? = none := by
        rw [List.getElem?_eq_none]
        omega
      rw [hnone1, hnone2]
  exact ⟨h1, h2, h3⟩

/-- Adding a column preserves every existing column. -/
theorem contains_addColumn (cols : List String) (k c : String)
    (h : cols.contains c = true) : (addColumn cols k).contains c = true := by
  unfold addColumn
  by_cases hk : cols.contains k = true
  · rw [if_pos hk]
    exact h
  · rw [if_neg hk]
    rw [contains_true_iff] at h ⊢
    exact List.mem_append_left _ h

/-- The freshly added column is present. -/
theorem contains_addColumn_self (cols : List String) (k : String) :
    (addColumn cols k).contains k = true := by
  unfold addColumn
  by_cases hk : cols.contains k = true
  · rw [if_pos hk]
    exact hk
  · rw [if_neg hk]
    rw [contains_true_iff]
    exact List.mem_append_right _ (List.mem_singleton_self _)

/-- Adding the same column twice is the same as adding it once. -/
theorem addColumn_idem (cols : List String) (k : String) :
    addColumn (addColumn cols k) k = addColumn cols k := by
  conv => lhs; rw [addColumn]
  rw [if_pos (contains_addColumn_self cols k)]

/-- A required-column check survives adding a column. -/
theorem all_contains_addColumn (req cols : List String) (k : String)
    (h : (req.all fun c => cols.contains c) = true) :
    (req.all fun c => (addColumn cols k).contains c) = true := by
  rw [List.all_eq_true] at h ⊢
  intro c hc
  exact contains_addColumn cols k c (h c hc)

/-- Re-running sort-then-classify with the default formula on its own
output changes nothing. -/
theorem calc1_idempotent (df d1 : DFrame) (sb : List (String × Bool))
    (hsb : ∀ p ∈ sb, p.1 ≠ "COUNT")
    (h1 : calculate_count_column (preprocess_data sb df) = .ok d1) :
    calculate_count_column (preprocess_data sb d1) = .ok d1 := by
  unfold calculate_count_column at h1
  split at h1
  case isFalse => exact Except.noConfusion h1
  case isTrue hg =>
    injection h1 with h1
    obtain ⟨F1, F2, F3⟩ := classify_fixpoint count1Flag sb count1Flag_setCell
      (fun c => rfl) (rowLE_setCell sb hsb) df.rows
    subst h1
    unfold calculate_count_column
    simp only [preprocess_data] at hg ⊢
    rw [if_pos (all_contains_addColumn _ _ _ hg)]
    simp only [countRows1]
    rw [F1, F2, F3, addColumn_idem]

/-- Re-running sort-then-classify with the custom E2 formula on its own
output changes nothing. -/
theorem calcE2_idempotent (df d1 : DFrame) (sb : List (String × Bool))
    (hsb : ∀ p ∈ sb, p.1 ≠ "COUNT")
    (h1 : calculate_count_custom_e2 (preprocess_data sb df) = .ok d1) :
    calculate_count_custom_e2 (preprocess_data sb d1) = .ok d1 := by
  unfold calculate_count_custom_e2 at h1
  split at h1
  case isFalse => exact Except.noConfusion h1
  case isTrue hg =>
    injection h1 with h1
    obtain ⟨F1, F2, F3⟩ := classify_fixpoint countE2Flag sb countE2Flag_setCell
      (fun c => rfl) (rowLE_setCell sb hsb) df.rows
    subst h1
    unfold calculate_count_custom_e2
    simp only [preprocess_data] at hg ⊢
    rw [if_pos (all_contains_addColumn _ _ _ hg)]
    simp only [countRowsE2]
    rw [F1, F2, F3, addColumn_idem]

/-- C7: for any configured pipeline (either registry entry), the
sort-then-classify composition is idempotent: if sorting with the config's
keys and applying its adjacency formula to a dataset yields `d1`, then
sorting and classifying `d1` again yields `d1` unchanged — the derived
`COUNT` column is a pure function of the adjacent rows, and the stable
sort leaves the already-sorted dataset in place. -/
theorem pipeline_idempotent (key : String) (cfg : Config) (df d1 : DFrame)
    (hcfg : PROCESSING_CONFIGS key = some cfg)
    (h1 : apply_count_formula (preprocess_data cfg.sort_by df) cfg.count_formula
      = .ok d1) :
    apply_count_formula (preprocess_data cfg.sort_by d1) cfg.count_formula
      = .ok d1 := by
  unfold PROCESSING_CONFIGS at hcfg
  by_cases hk1 : (key == "default") = true
  · rw [if_pos hk1] at hcfg
    injection hcfg with hcfg
    subst hcfg
    unfold apply_count_formula at h1 ⊢
    rw [if_pos (by decide)] at h1 ⊢
    exact calc1_idempotent df d1 _ (by decide) h1
  · rw [if_neg hk1] at hcfg
    by_cases hk2 : (key == "custom_file_2") = true
    · rw [if_pos hk2] at hcfg
      injection hcfg with hcfg
      subst hcfg
      unfold apply_count_formula at h1 ⊢
      rw [if_neg (by decide), if_pos (by decide)] at h1 ⊢
      exact calcE2_idempotent df d1 _ (by decide) h1
    · rw [if_neg hk2] at hcfg
      exact Option.noConfusion hcfg

/-- Witness for C7: one concrete run of the default config, re-run on its
own output, reproduces it exactly. -/
theorem pipeline_idempotent_witness :
    PROCESSING_CONFIGS "default"
      = some ⟨["VIN", "TERM", "START DATE", "PRICE"],
          [("VIN", true), ("PRICE", false)], "filtration_for_file_1", "ALL"⟩
    ∧ apply_count_formula (preprocess_data [("VIN", true), ("PRICE", false)]
        ⟨["VIN", "TERM", "START DATE", "PRICE"], [[("PRICE", Cell.s "1.6")]]⟩)
        "filtration_for_file_1"
      = Except.ok ⟨["VIN", "TERM", "START DATE", "PRICE", "COUNT"],
          [[("PRICE", Cell.n ⟨16, 1⟩), ("COUNT", Cell.n ⟨0, 0⟩)]]⟩
    ∧ apply_count_formula (preprocess_data [("VIN", true), ("PRICE", false)]
        ⟨["VIN", "TERM", "START DATE", "PRICE", "COUNT"],
          [[("PRICE", Cell.n ⟨16, 1⟩), ("COUNT", Cell.n ⟨0, 0⟩)]]⟩)
        "filtration_for_file_1"
      = Except.ok ⟨["VIN", "TERM", "START DATE", "PRICE", "COUNT"],
          [[("PRICE", Cell.n ⟨16, 1⟩), ("COUNT", Cell.n ⟨0, 0⟩)]]⟩ := by
  have h1 : apply_count_formula (preprocess_data [("VIN", true), ("PRICE", false)]
      ⟨["VIN", "TERM", "START DATE", "PRICE"], [[("PRICE", Cell.s "1.6")]]⟩)
      "filtration_for_file_1"
      = Except.ok ⟨["VIN", "TERM", "START DATE", "PRICE", "COUNT"],
          [[("PRICE", Cell.n ⟨16, 1⟩), ("COUNT", Cell.n ⟨0, 0⟩)]]⟩ := by
    simp [apply_count_formula, calculate_count_column, preprocess_data, List.mergeSort,
      List.splitInTwo, List.splitAt_eq, List.merge, countRows1, withPrevMap, addColumn]
    decide
  refine ⟨rfl, h1, ?_⟩
  exact pipeline_idempotent "default"
    ⟨["VIN", "TERM", "START DATE", "PRICE"],
      [("VIN", true), ("PRICE", false)], "filtration_for_file_1", "ALL"⟩
    ⟨["VIN", "TERM", "START DATE", "PRICE"], [[("PRICE", Cell.s "1.6")]]⟩
    ⟨["VIN", "TERM", "START DATE", "PRICE", "COUNT"],
      [[("PRICE", Cell.n ⟨16, 1⟩), ("COUNT", Cell.n ⟨0, 0⟩)]]⟩ rfl h1
